import Mathlib

/-!
Verification of the connxray decorator pair (hook-based `Conn` from
`conn.go`, hook-based `Listener` modelled from the spec; the repository
ships only the listener's tests).  Each decorated operation is embedded
as a pure function returning its Go results together with a trace of the
hook and base-method invocations it performed, and the decorator state
after the call.  A `none` result models a nil-interface dereference
(a Go runtime panic).
-/

namespace Connxray

/-- Byte buffers: in Go a `[]byte` slice; the decorator passes the same
slice value to the base method and to the hooks. -/
abbrev Bytes := List Nat

/-- Network addresses (`net.Addr`), abstracted to an identifier. -/
abbrev Addr := Nat

/-- Instants (`time.Time`), abstracted to an identifier. -/
abbrev Time := Nat

/-- Go `error` values.  A Go `error` variable is `Option GoError` with
`none` for nil.  `notPacketConn` is the `ErrNotPacketConn` sentinel from
`conn.go`; every other error is `mk msg`. -/
inductive GoError where
  | notPacketConn
  | mk (msg : String)
deriving DecidableEq

/-- The `net.PacketConn` capability of a wrapped connection: the methods
`ReadFrom` and `WriteTo` beyond plain `net.Conn`.  Each method is the
behaviour of the underlying object for the single call being modelled. -/
structure PacketOps where
  readFrom : Bytes → Nat × Option Addr × Option GoError
  writeTo : Bytes → Addr → Nat × Option GoError

/-- An underlying `net.Conn` object: one field per interface method,
giving the results of the call being modelled; `packet = some _` iff the
dynamic type also implements `net.PacketConn`. -/
structure NetConn where
  read : Bytes → Nat × Option GoError
  write : Bytes → Nat × Option GoError
  close : Option GoError
  localAddr : Addr
  remoteAddr : Addr
  setDeadline : Time → Option GoError
  setReadDeadline : Time → Option GoError
  setWriteDeadline : Time → Option GoError
  packet : Option PacketOps

/-- The connection decorator `Conn` from `conn.go`.  `Base` is the
wrapped `net.Conn` (`none` models a nil interface value, as produced by
`Listener.Accept` when the underlying accept fails).  A before hook is
`some f` when set, where `f` maps the hook's non-receiver arguments to
the returned `error`; an after hook is void in Go, so its field only
records whether it is set — its invocations and their arguments appear
in the trace.  Hooks are modelled as pure, hence non-mutating. -/
structure Conn where
  Base : Option NetConn
  BeforeRead : Option (Bytes → Option GoError)
  AfterRead : Bool
  BeforeReadFrom : Option (Bytes → Option GoError)
  AfterReadFrom : Bool
  BeforeWrite : Option (Bytes → Option GoError)
  AfterWrite : Bool
  BeforeWriteTo : Option (Bytes → Addr → Option GoError)
  AfterWriteTo : Bool
  BeforeClose : Option (Option GoError)
  AfterClose : Bool
  AfterLocalAddr : Bool
  AfterRemoteAddr : Bool
  BeforeSetDeadline : Option (Time → Option GoError)
  AfterSetDeadline : Bool
  BeforeSetReadDeadline : Option (Time → Option GoError)
  AfterSetReadDeadline : Bool
  BeforeSetWriteDeadline : Option (Time → Option GoError)
  AfterSetWriteDeadline : Bool

/-- An underlying `net.Listener` object: the results of the single
accept/close/addr calls being modelled.  `accept` yields the raw
`net.Conn` (`none` for nil) and the error. -/
structure NetListener where
  accept : Option NetConn × Option GoError
  close : Option GoError
  addr : Addr

/-- Modelled from the spec: the hook-based `Listener` decorator (fields
`Base`, `BeforeAccept`, `AfterAccept`, `BeforeClose`, `AfterClose`,
`AfterAddr`, spec section 3).  The hook-based listener source file is
missing from the repository snapshot — only `listener_test.go` exercises
it; `listener.go` holds the superseded callback version.  Hook encoding
as in `Conn`; `BeforeAccept`/`BeforeClose` take only the receiver, so a
set before hook is just its returned `error`. -/
structure Listener where
  Base : NetListener
  BeforeAccept : Option (Option GoError)
  AfterAccept : Bool
  BeforeClose : Option (Option GoError)
  AfterClose : Bool
  AfterAddr : Bool

/-- Observable invocations made by a decorated call: each before-hook,
base-method and after-hook invocation, carrying the arguments it was
given (after-hook events also carry the results passed to the hook).
Listener close events are suffixed `L` to keep them apart from the
connection's. -/
inductive Event where
  | beforeRead (b : Bytes)
  | baseRead (b : Bytes)
  | afterRead (b : Bytes) (n : Nat) (e : Option GoError)
  | beforeReadFrom (b : Bytes)
  | baseReadFrom (b : Bytes)
  | afterReadFrom (b : Bytes) (n : Nat) (a : Option Addr) (e : Option GoError)
  | beforeWrite (b : Bytes)
  | baseWrite (b : Bytes)
  | afterWrite (b : Bytes) (n : Nat) (e : Option GoError)
  | beforeWriteTo (b : Bytes) (a : Addr)
  | baseWriteTo (b : Bytes) (a : Addr)
  | afterWriteTo (b : Bytes) (a : Addr) (n : Nat) (e : Option GoError)
  | beforeCloseC
  | baseCloseC
  | afterCloseC (e : Option GoError)
  | baseLocalAddr
  | afterLocalAddr (a : Addr)
  | baseRemoteAddr
  | afterRemoteAddr (a : Addr)
  | beforeSetDeadline (t : Time)
  | baseSetDeadline (t : Time)
  | afterSetDeadline (t : Time) (e : Option GoError)
  | beforeSetReadDeadline (t : Time)
  | baseSetReadDeadline (t : Time)
  | afterSetReadDeadline (t : Time) (e : Option GoError)
  | beforeSetWriteDeadline (t : Time)
  | baseSetWriteDeadline (t : Time)
  | afterSetWriteDeadline (t : Time) (e : Option GoError)
  | beforeAccept
  | baseAccept
  | afterAccept (wrapped : Conn) (e : Option GoError)
  | beforeCloseL
  | baseCloseL
  | afterCloseL (e : Option GoError)
  | baseAddr
  | afterAddr (a : Addr)

/-- Outcome of one decorated call: the Go return value(s), the ordered
trace of hook/base invocations it performed, and the decorator state
when the call returns. -/
structure OpOut (σ : Type) (α : Type) where
  val : α
  trace : List Event
  post : σ

/-- A set before hook applied to this call's arguments (`none` when the
hook field is nil, `some r` when the hook is invoked and returns `r`). -/
def hookArg {α : Type} (h : Option (α → Option GoError)) (a : α) :
    Option (Option GoError) :=
  h.map (fun f => f a)

/-- As `hookArg`, for the two-argument `BeforeWriteTo` hook. -/
def hookArg2 {α β : Type} (h : Option (α → β → Option GoError)) (a : α) (b : β) :
    Option (Option GoError) :=
  h.map (fun f => f a b)

/-- Dispatch of the `if c.BeforeX != nil` prologue shared by every
hooked method: the trace it contributes (the hook invocation event, when
the hook is set) and the error it produced (`none` when unset or when
the hook returned nil). -/
def runBefore (r : Option (Option GoError)) (ev : Event) : List Event × Option GoError :=
  match r with
  | none => ([], none)
  | some res => ([ev], res)

/-- The before hook did not short-circuit: it is unset, or it was
invoked and returned nil. -/
def passes (r : Option (Option GoError)) : Prop :=
  r = none ∨ r = some none

/-- Trace contributed by the `if c.AfterX != nil { defer c.AfterX(...) }`
epilogue: the after-hook invocation event when the hook is set. -/
def afterTr (present : Bool) (ev : Event) : List Event :=
  if present then [ev] else []

/-- Trace contributed by the before-hook prologue: the first component
of `runBefore`. -/
def preTr (r : Option (Option GoError)) (ev : Event) : List Event :=
  match r with
  | none => []
  | some _ => [ev]

/-- The Go type assertion `c.Base.(net.PacketConn)`: fails on a nil
interface and on a dynamic type without the capability, without
dereferencing the wrapped object. -/
def Conn.packetOf (c : Conn) : Option PacketOps :=
  c.Base.bind (fun nc => nc.packet)

/-- `Conn.Read` from `conn.go`: before hook (short-circuiting with
`(0, err)`), base read, deferred after hook with the true results. -/
def Conn.Read (c : Conn) (b : Bytes) : Option (OpOut Conn (Nat × Option GoError)) :=
  let pre := runBefore (hookArg c.BeforeRead b) (Event.beforeRead b)
  match pre.2 with
  | some e => some ⟨(0, some e), pre.1, c⟩
  | none =>
    match c.Base with
    | none => none
    | some base =>
      let r := base.read b
      some ⟨r, pre.1 ++ [Event.baseRead b] ++
        afterTr c.AfterRead (Event.afterRead b r.1 r.2), c⟩

/-- `Conn.ReadFrom` from `conn.go`: the packet-capability check comes
first and, when it fails, the method returns `(0, nil, ErrNotPacketConn)`
at once — before any hook dispatch.  Otherwise: before hook
(short-circuiting with `(0, nil, err)`), base packet read, deferred
after hook. -/
def Conn.ReadFrom (c : Conn) (b : Bytes) :
    Option (OpOut Conn (Nat × Option Addr × Option GoError)) :=
  match c.packetOf with
  | none => some ⟨(0, none, some GoError.notPacketConn), [], c⟩
  | some pconn =>
    let pre := runBefore (hookArg c.BeforeReadFrom b) (Event.beforeReadFrom b)
    match pre.2 with
    | some e => some ⟨(0, none, some e), pre.1, c⟩
    | none =>
      let r := pconn.readFrom b
      some ⟨r, pre.1 ++ [Event.baseReadFrom b] ++
        afterTr c.AfterReadFrom (Event.afterReadFrom b r.1 r.2.1 r.2.2), c⟩

/-- `Conn.Write` from `conn.go`: same shape as `Conn.Read`. -/
def Conn.Write (c : Conn) (b : Bytes) : Option (OpOut Conn (Nat × Option GoError)) :=
  let pre := runBefore (hookArg c.BeforeWrite b) (Event.beforeWrite b)
  match pre.2 with
  | some e => some ⟨(0, some e), pre.1, c⟩
  | none =>
    match c.Base with
    | none => none
    | some base =>
      let r := base.write b
      some ⟨r, pre.1 ++ [Event.baseWrite b] ++
        afterTr c.AfterWrite (Event.afterWrite b r.1 r.2), c⟩

/-- `Conn.WriteTo` from `conn.go`: capability check first (immediate
`(0, ErrNotPacketConn)` return with no hook dispatch when absent), then
before hook, base packet write, deferred after hook. -/
def Conn.WriteTo (c : Conn) (b : Bytes) (a : Addr) :
    Option (OpOut Conn (Nat × Option GoError)) :=
  match c.packetOf with
  | none => some ⟨(0, some GoError.notPacketConn), [], c⟩
  | some pconn =>
    let pre := runBefore (hookArg2 c.BeforeWriteTo b a) (Event.beforeWriteTo b a)
    match pre.2 with
    | some e => some ⟨(0, some e), pre.1, c⟩
    | none =>
      let r := pconn.writeTo b a
      some ⟨r, pre.1 ++ [Event.baseWriteTo b a] ++
        afterTr c.AfterWriteTo (Event.afterWriteTo b a r.1 r.2), c⟩

/-- `Conn.Close` from `conn.go`: before hook (short-circuiting with its
error), base close, deferred after hook with the true error. -/
def Conn.Close (c : Conn) : Option (OpOut Conn (Option GoError)) :=
  let pre := runBefore c.BeforeClose Event.beforeCloseC
  match pre.2 with
  | some e => some ⟨some e, pre.1, c⟩
  | none =>
    match c.Base with
    | none => none
    | some base =>
      let r := base.close
      some ⟨r, pre.1 ++ [Event.baseCloseC] ++
        afterTr c.AfterClose (Event.afterCloseC r), c⟩

/-- `Conn.LocalAddr` from `conn.go`: base query, then the after hook
(there is no before hook), returning the queried address. -/
def Conn.LocalAddr (c : Conn) : Option (OpOut Conn Addr) :=
  match c.Base with
  | none => none
  | some base =>
    let a := base.localAddr
    some ⟨a, [Event.baseLocalAddr] ++
      afterTr c.AfterLocalAddr (Event.afterLocalAddr a), c⟩

/-- `Conn.RemoteAddr` from `conn.go`: base query, then the after hook
(there is no before hook), returning the queried address. -/
def Conn.RemoteAddr (c : Conn) : Option (OpOut Conn Addr) :=
  match c.Base with
  | none => none
  | some base =>
    let a := base.remoteAddr
    some ⟨a, [Event.baseRemoteAddr] ++
      afterTr c.AfterRemoteAddr (Event.afterRemoteAddr a), c⟩

/-- `Conn.SetDeadline` from `conn.go`: before hook, base call, deferred
after hook with the deadline and the true error. -/
def Conn.SetDeadline (c : Conn) (t : Time) : Option (OpOut Conn (Option GoError)) :=
  let pre := runBefore (hookArg c.BeforeSetDeadline t) (Event.beforeSetDeadline t)
  match pre.2 with
  | some e => some ⟨some e, pre.1, c⟩
  | none =>
    match c.Base with
    | none => none
    | some base =>
      let r := base.setDeadline t
      some ⟨r, pre.1 ++ [Event.baseSetDeadline t] ++
        afterTr c.AfterSetDeadline (Event.afterSetDeadline t r), c⟩

/-- `Conn.SetReadDeadline` from `conn.go`: same shape as
`Conn.SetDeadline`. -/
def Conn.SetReadDeadline (c : Conn) (t : Time) : Option (OpOut Conn (Option GoError)) :=
  let pre := runBefore (hookArg c.BeforeSetReadDeadline t) (Event.beforeSetReadDeadline t)
  match pre.2 with
  | some e => some ⟨some e, pre.1, c⟩
  | none =>
    match c.Base with
    | none => none
    | some base =>
      let r := base.setReadDeadline t
      some ⟨r, pre.1 ++ [Event.baseSetReadDeadline t] ++
        afterTr c.AfterSetReadDeadline (Event.afterSetReadDeadline t r), c⟩

/-- `Conn.SetWriteDeadline` from `conn.go`: same shape as
`Conn.SetDeadline`. -/
def Conn.SetWriteDeadline (c : Conn) (t : Time) : Option (OpOut Conn (Option GoError)) :=
  let pre := runBefore (hookArg c.BeforeSetWriteDeadline t) (Event.beforeSetWriteDeadline t)
  match pre.2 with
  | some e => some ⟨some e, pre.1, c⟩
  | none =>
    match c.Base with
    | none => none
    | some base =>
      let r := base.setWriteDeadline t
      some ⟨r, pre.1 ++ [Event.baseSetWriteDeadline t] ++
        afterTr c.AfterSetWriteDeadline (Event.afterSetWriteDeadline t r), c⟩

/-- The fresh connection decorator built by the listener's accept around
the raw accepted connection: every hook field unset. -/
def Conn.fresh (base : Option NetConn) : Conn where
  Base := base
  BeforeRead := none
  AfterRead := false
  BeforeReadFrom := none
  AfterReadFrom := false
  BeforeWrite := none
  AfterWrite := false
  BeforeWriteTo := none
  AfterWriteTo := false
  BeforeClose := none
  AfterClose := false
  AfterLocalAddr := false
  AfterRemoteAddr := false
  BeforeSetDeadline := none
  AfterSetDeadline := false
  BeforeSetReadDeadline := none
  AfterSetReadDeadline := false
  BeforeSetWriteDeadline := none
  AfterSetWriteDeadline := false

/-- All hook fields of a connection decorator are unset. -/
def Conn.hookFree (c : Conn) : Prop :=
  c.BeforeRead = none ∧ c.AfterRead = false ∧
  c.BeforeReadFrom = none ∧ c.AfterReadFrom = false ∧
  c.BeforeWrite = none ∧ c.AfterWrite = false ∧
  c.BeforeWriteTo = none ∧ c.AfterWriteTo = false ∧
  c.BeforeClose = none ∧ c.AfterClose = false ∧
  c.AfterLocalAddr = false ∧ c.AfterRemoteAddr = false ∧
  c.BeforeSetDeadline = none ∧ c.AfterSetDeadline = false ∧
  c.BeforeSetReadDeadline = none ∧ c.AfterSetReadDeadline = false ∧
  c.BeforeSetWriteDeadline = none ∧ c.AfterSetWriteDeadline = false

/-- Modelled from the spec: `Listener.Accept` (spec section 4.1; its
source file is absent, `listener_test.go` remains).  If `BeforeAccept`
is set and errors, return `(nil, thatError)` with nothing else invoked.
Otherwise invoke the underlying accept, wrap the returned raw connection
— even a nil one — in a fresh `Conn` with all hooks unset, invoke
`AfterAccept` (when set) with that decorator and the accept error even
when accept errored, and return the decorator with the error. -/
def Listener.Accept (l : Listener) : OpOut Listener (Option Conn × Option GoError) :=
  let pre := runBefore l.BeforeAccept Event.beforeAccept
  match pre.2 with
  | some e => ⟨(none, some e), pre.1, l⟩
  | none =>
    let r := l.Base.accept
    let conn := Conn.fresh r.1
    ⟨(some conn, r.2), pre.1 ++ [Event.baseAccept] ++
      afterTr l.AfterAccept (Event.afterAccept conn r.2), l⟩

/-- Modelled from the spec: `Listener.Close` (spec section 4.1; source
file absent, `listener_test.go` remains).  Before hook short-circuits
with its error; otherwise base close, then the after hook with the true
error. -/
def Listener.Close (l : Listener) : OpOut Listener (Option GoError) :=
  let pre := runBefore l.BeforeClose Event.beforeCloseL
  match pre.2 with
  | some e => ⟨some e, pre.1, l⟩
  | none =>
    let r := l.Base.close
    ⟨r, pre.1 ++ [Event.baseCloseL] ++ afterTr l.AfterClose (Event.afterCloseL r), l⟩

/-- Modelled from the spec: `Listener.Addr` (spec section 4.1; source
file absent, `listener_test.go` remains).  No before hook: base query,
after hook with the queried address, return the address. -/
def Listener.Addr (l : Listener) : OpOut Listener Addr :=
  let a := l.Base.addr
  ⟨a, [Event.baseAddr] ++ afterTr l.AfterAddr (Event.afterAddr a), l⟩

/-- A sample short-circuit error, as a before hook would return. -/
def errE : GoError := GoError.mk "E"

/-- A second sample error, for listener close scenarios. -/
def errF : GoError := GoError.mk "F"

/-- Sample packet capability: echoes buffer lengths, source address 9. -/
def pOps : PacketOps where
  readFrom := fun b => (b.length, some 9, none)
  writeTo := fun b _ => (b.length, none)

/-- Sample packet-capable underlying connection. -/
def ncPacket : NetConn where
  read := fun b => (b.length, none)
  write := fun b => (b.length, none)
  close := none
  localAddr := 1
  remoteAddr := 2
  setDeadline := fun _ => none
  setReadDeadline := fun _ => none
  setWriteDeadline := fun _ => none
  packet := some pOps

/-- Sample stream-only underlying connection (no packet capability). -/
def ncPlain : NetConn where
  read := fun b => (b.length, none)
  write := fun b => (b.length, none)
  close := none
  localAddr := 1
  remoteAddr := 2
  setDeadline := fun _ => none
  setReadDeadline := fun _ => none
  setWriteDeadline := fun _ => none
  packet := none

/-- Sample decorator whose every before hook returns `errE` and whose
every after hook is set, over a packet-capable base. -/
def cShort : Conn where
  Base := some ncPacket
  BeforeRead := some (fun _ => some errE)
  AfterRead := true
  BeforeReadFrom := some (fun _ => some errE)
  AfterReadFrom := true
  BeforeWrite := some (fun _ => some errE)
  AfterWrite := true
  BeforeWriteTo := some (fun _ _ => some errE)
  AfterWriteTo := true
  BeforeClose := some (some errE)
  AfterClose := true
  AfterLocalAddr := true
  AfterRemoteAddr := true
  BeforeSetDeadline := some (fun _ => some errE)
  AfterSetDeadline := true
  BeforeSetReadDeadline := some (fun _ => some errE)
  AfterSetReadDeadline := true
  BeforeSetWriteDeadline := some (fun _ => some errE)
  AfterSetWriteDeadline := true

/-- Sample decorator whose every before hook is set but returns nil and
whose every after hook is set, over a packet-capable base. -/
def cPass : Conn where
  Base := some ncPacket
  BeforeRead := some (fun _ => none)
  AfterRead := true
  BeforeReadFrom := some (fun _ => none)
  AfterReadFrom := true
  BeforeWrite := some (fun _ => none)
  AfterWrite := true
  BeforeWriteTo := some (fun _ _ => none)
  AfterWriteTo := true
  BeforeClose := some none
  AfterClose := true
  AfterLocalAddr := true
  AfterRemoteAddr := true
  BeforeSetDeadline := some (fun _ => none)
  AfterSetDeadline := true
  BeforeSetReadDeadline := some (fun _ => none)
  AfterSetReadDeadline := true
  BeforeSetWriteDeadline := some (fun _ => none)
  AfterSetWriteDeadline := true

/-- Sample decorator over a stream-only base, with the packet after
hooks set (for the capability-absent scenarios). -/
def cNoPacket : Conn where
  Base := some ncPlain
  BeforeRead := none
  AfterRead := false
  BeforeReadFrom := some (fun _ => none)
  AfterReadFrom := true
  BeforeWrite := none
  AfterWrite := false
  BeforeWriteTo := some (fun _ _ => none)
  AfterWriteTo := true
  BeforeClose := none
  AfterClose := false
  AfterLocalAddr := false
  AfterRemoteAddr := false
  BeforeSetDeadline := none
  AfterSetDeadline := false
  BeforeSetReadDeadline := none
  AfterSetReadDeadline := false
  BeforeSetWriteDeadline := none
  AfterSetWriteDeadline := false

/-- Sample underlying listener whose accept fails with `errE` returning
a nil raw connection. -/
def nlFailing : NetListener where
  accept := (none, some errE)
  close := none
  addr := 3

/-- Sample listener decorator around `nlFailing`: `BeforeAccept` unset,
`AfterAccept` set, `BeforeClose` returning `errF`, `AfterClose` and
`AfterAddr` set. -/
def lSample : Listener where
  Base := nlFailing
  BeforeAccept := none
  AfterAccept := true
  BeforeClose := some (some errF)
  AfterClose := true
  AfterAddr := true

/-- All hook fields of a listener decorator are unset. -/
def Listener.hookFree (l : Listener) : Prop :=
  l.BeforeAccept = none ∧ l.AfterAccept = false ∧
  l.BeforeClose = none ∧ l.AfterClose = false ∧ l.AfterAddr = false

/-- Sample hook-free connection decorator over the packet-capable
base. -/
def cQuiet : Conn := Conn.fresh (some ncPacket)

/-- Sample hook-free listener decorator. -/
def lQuiet : Listener where
  Base := nlFailing
  BeforeAccept := none
  AfterAccept := false
  BeforeClose := none
  AfterClose := false
  AfterAddr := false

/-- Claim C1: for every operation with a before/after hook pair (Read,
Write, Close, SetDeadline, SetReadDeadline, SetWriteDeadline, and
ReadFrom/WriteTo when the wrapped connection is packet-capable), if the
before hook is set and returns error `e`, the call returns exactly `e`
with zero-valued results (0 bytes; nil address for ReadFrom), and the
trace is exactly the before-hook invocation: the underlying operation
and the after hook are never invoked. -/
theorem before_hook_error_short_circuits (c : Conn) (b : Bytes) (a : Addr)
    (t : Time) (e : GoError) (p : PacketOps) :
    (∀ f, c.BeforeRead = some f → f b = some e →
      c.Read b = some ⟨(0, some e), [Event.beforeRead b], c⟩) ∧
    (∀ f, c.BeforeWrite = some f → f b = some e →
      c.Write b = some ⟨(0, some e), [Event.beforeWrite b], c⟩) ∧
    (c.BeforeClose = some (some e) →
      c.Close = some ⟨some e, [Event.beforeCloseC], c⟩) ∧
    (∀ f, c.BeforeSetDeadline = some f → f t = some e →
      c.SetDeadline t = some ⟨some e, [Event.beforeSetDeadline t], c⟩) ∧
    (∀ f, c.BeforeSetReadDeadline = some f → f t = some e →
      c.SetReadDeadline t = some ⟨some e, [Event.beforeSetReadDeadline t], c⟩) ∧
    (∀ f, c.BeforeSetWriteDeadline = some f → f t = some e →
      c.SetWriteDeadline t = some ⟨some e, [Event.beforeSetWriteDeadline t], c⟩) ∧
    (c.packetOf = some p → ∀ f, c.BeforeReadFrom = some f → f b = some e →
      c.ReadFrom b = some ⟨(0, none, some e), [Event.beforeReadFrom b], c⟩) ∧
    (c.packetOf = some p → ∀ f, c.BeforeWriteTo = some f → f b a = some e →
      c.WriteTo b a = some ⟨(0, some e), [Event.beforeWriteTo b a], c⟩) := by
  refine ⟨?_, ?_, ?_, ?_, ?_, ?_, ?_, ?_⟩
  · intro f hf hv
    simp [Conn.Read, hookArg, runBefore, hf, hv]
  · intro f hf hv
    simp [Conn.Write, hookArg, runBefore, hf, hv]
  · intro hf
    simp [Conn.Close, runBefore, hf]
  · intro f hf hv
    simp [Conn.SetDeadline, hookArg, runBefore, hf, hv]
  · intro f hf hv
    simp [Conn.SetReadDeadline, hookArg, runBefore, hf, hv]
  · intro f hf hv
    simp [Conn.SetWriteDeadline, hookArg, runBefore, hf, hv]
  · intro hp f hf hv
    simp [Conn.ReadFrom, hookArg, runBefore, hp, hf, hv]
  · intro hp f hf hv
    simp [Conn.WriteTo, hookArg2, runBefore, hp, hf, hv]

/-- Witness for C1 at `cShort` (all before hooks erroring with `errE`,
all after hooks set, packet-capable base). -/
theorem before_hook_error_short_circuits_w :
    cShort.Read [1] = some ⟨(0, some errE), [Event.beforeRead [1]], cShort⟩ ∧
    cShort.Write [1] = some ⟨(0, some errE), [Event.beforeWrite [1]], cShort⟩ ∧
    cShort.Close = some ⟨some errE, [Event.beforeCloseC], cShort⟩ ∧
    cShort.SetDeadline 5 = some ⟨some errE, [Event.beforeSetDeadline 5], cShort⟩ ∧
    cShort.SetReadDeadline 5 =
      some ⟨some errE, [Event.beforeSetReadDeadline 5], cShort⟩ ∧
    cShort.SetWriteDeadline 5 =
      some ⟨some errE, [Event.beforeSetWriteDeadline 5], cShort⟩ ∧
    cShort.ReadFrom [1] =
      some ⟨(0, none, some errE), [Event.beforeReadFrom [1]], cShort⟩ ∧
    cShort.WriteTo [1] 7 =
      some ⟨(0, some errE), [Event.beforeWriteTo [1] 7], cShort⟩ := by
  obtain ⟨h1, h2, h3, h4, h5, h6, h7, h8⟩ :=
    before_hook_error_short_circuits cShort [1] 7 5 errE pOps
  exact ⟨h1 _ rfl rfl, h2 _ rfl rfl, h3 rfl, h4 _ rfl rfl, h5 _ rfl rfl,
    h6 _ rfl rfl, h7 rfl _ rfl rfl, h8 rfl _ rfl rfl⟩

/-- Claim C2: for every decorated operation with a before/after hook
pair, whenever the before hook is unset or returns nil: the before hook
appears in the trace iff it is set, the underlying operation is invoked
exactly once with the call's actual arguments, the after hook (when
set) is invoked exactly once, after the underlying call and with the
underlying call's actual arguments and results including its error, and
it is the last event before the decorated call returns its (underlying)
result.  ReadFrom/WriteTo are covered on a packet-capable base. -/
theorem hook_dispatch_normal_path (c : Conn) (base : NetConn) (p : PacketOps)
    (b : Bytes) (a : Addr) (t : Time) (hbase : c.Base = some base) :
    (passes (hookArg c.BeforeRead b) →
      c.Read b = some ⟨base.read b,
        preTr (hookArg c.BeforeRead b) (Event.beforeRead b) ++
          [Event.baseRead b] ++
          afterTr c.AfterRead
            (Event.afterRead b (base.read b).1 (base.read b).2), c⟩) ∧
    (passes (hookArg c.BeforeWrite b) →
      c.Write b = some ⟨base.write b,
        preTr (hookArg c.BeforeWrite b) (Event.beforeWrite b) ++
          [Event.baseWrite b] ++
          afterTr c.AfterWrite
            (Event.afterWrite b (base.write b).1 (base.write b).2), c⟩) ∧
    (passes c.BeforeClose →
      c.Close = some ⟨base.close,
        preTr c.BeforeClose Event.beforeCloseC ++ [Event.baseCloseC] ++
          afterTr c.AfterClose (Event.afterCloseC base.close), c⟩) ∧
    (passes (hookArg c.BeforeSetDeadline t) →
      c.SetDeadline t = some ⟨base.setDeadline t,
        preTr (hookArg c.BeforeSetDeadline t) (Event.beforeSetDeadline t) ++
          [Event.baseSetDeadline t] ++
          afterTr c.AfterSetDeadline
            (Event.afterSetDeadline t (base.setDeadline t)), c⟩) ∧
    (passes (hookArg c.BeforeSetReadDeadline t) →
      c.SetReadDeadline t = some ⟨base.setReadDeadline t,
        preTr (hookArg c.BeforeSetReadDeadline t)
            (Event.beforeSetReadDeadline t) ++
          [Event.baseSetReadDeadline t] ++
          afterTr c.AfterSetReadDeadline
            (Event.afterSetReadDeadline t (base.setReadDeadline t)), c⟩) ∧
    (passes (hookArg c.BeforeSetWriteDeadline t) →
      c.SetWriteDeadline t = some ⟨base.setWriteDeadline t,
        preTr (hookArg c.BeforeSetWriteDeadline t)
            (Event.beforeSetWriteDeadline t) ++
          [Event.baseSetWriteDeadline t] ++
          afterTr c.AfterSetWriteDeadline
            (Event.afterSetWriteDeadline t (base.setWriteDeadline t)), c⟩) ∧
    (base.packet = some p → passes (hookArg c.BeforeReadFrom b) →
      c.ReadFrom b = some ⟨p.readFrom b,
        preTr (hookArg c.BeforeReadFrom b) (Event.beforeReadFrom b) ++
          [Event.baseReadFrom b] ++
          afterTr c.AfterReadFrom
            (Event.afterReadFrom b (p.readFrom b).1 (p.readFrom b).2.1
              (p.readFrom b).2.2), c⟩) ∧
    (base.packet = some p → passes (hookArg2 c.BeforeWriteTo b a) →
      c.WriteTo b a = some ⟨p.writeTo b a,
        preTr (hookArg2 c.BeforeWriteTo b a) (Event.beforeWriteTo b a) ++
          [Event.baseWriteTo b a] ++
          afterTr c.AfterWriteTo
            (Event.afterWriteTo b a (p.writeTo b a).1 (p.writeTo b a).2),
        c⟩) := by
  refine ⟨?_, ?_, ?_, ?_, ?_, ?_, ?_, ?_⟩
  · rintro (h | h) <;>
      simp [Conn.Read, runBefore, preTr, h, hbase]
  · rintro (h | h) <;>
      simp [Conn.Write, runBefore, preTr, h, hbase]
  · rintro (h | h) <;>
      simp [Conn.Close, runBefore, preTr, h, hbase]
  · rintro (h | h) <;>
      simp [Conn.SetDeadline, runBefore, preTr, h, hbase]
  · rintro (h | h) <;>
      simp [Conn.SetReadDeadline, runBefore, preTr, h, hbase]
  · rintro (h | h) <;>
      simp [Conn.SetWriteDeadline, runBefore, preTr, h, hbase]
  · rintro hp (h | h) <;>
      simp [Conn.ReadFrom, Conn.packetOf, runBefore, preTr, h, hbase, hp]
  · rintro hp (h | h) <;>
      simp [Conn.WriteTo, Conn.packetOf, runBefore, preTr, h, hbase, hp]

/-- Witness for C2 at `cPass` (all before hooks set and returning nil,
all after hooks set, packet-capable base `ncPacket`). -/
theorem hook_dispatch_normal_path_w :
    cPass.Read [1] = some ⟨(1, none),
      [Event.beforeRead [1], Event.baseRead [1],
        Event.afterRead [1] 1 none], cPass⟩ ∧
    cPass.Write [1] = some ⟨(1, none),
      [Event.beforeWrite [1], Event.baseWrite [1],
        Event.afterWrite [1] 1 none], cPass⟩ ∧
    cPass.Close = some ⟨none,
      [Event.beforeCloseC, Event.baseCloseC, Event.afterCloseC none],
      cPass⟩ ∧
    cPass.SetDeadline 5 = some ⟨none,
      [Event.beforeSetDeadline 5, Event.baseSetDeadline 5,
        Event.afterSetDeadline 5 none], cPass⟩ ∧
    cPass.SetReadDeadline 5 = some ⟨none,
      [Event.beforeSetReadDeadline 5, Event.baseSetReadDeadline 5,
        Event.afterSetReadDeadline 5 none], cPass⟩ ∧
    cPass.SetWriteDeadline 5 = some ⟨none,
      [Event.beforeSetWriteDeadline 5, Event.baseSetWriteDeadline 5,
        Event.afterSetWriteDeadline 5 none], cPass⟩ ∧
    cPass.ReadFrom [1] = some ⟨(1, some 9, none),
      [Event.beforeReadFrom [1], Event.baseReadFrom [1],
        Event.afterReadFrom [1] 1 (some 9) none], cPass⟩ ∧
    cPass.WriteTo [1] 7 = some ⟨(1, none),
      [Event.beforeWriteTo [1] 7, Event.baseWriteTo [1] 7,
        Event.afterWriteTo [1] 7 1 none], cPass⟩ := by
  obtain ⟨h1, h2, h3, h4, h5, h6, h7, h8⟩ :=
    hook_dispatch_normal_path cPass ncPacket pOps [1] 7 5 rfl
  exact ⟨h1 (Or.inr rfl), h2 (Or.inr rfl), h3 (Or.inr rfl),
    h4 (Or.inr rfl), h5 (Or.inr rfl), h6 (Or.inr rfl),
    h7 rfl (Or.inr rfl), h8 rfl (Or.inr rfl)⟩

/-- Claim C3 (divergence evaluation): on a stream-only base with
`AfterReadFrom` and `AfterWriteTo` set, `ReadFrom`/`WriteTo` return the
`ErrNotPacketConn` sentinel with an empty trace — the after hooks are
never invoked, contrary to the claim (and to the package doc comment,
which promises the error is passed to the hooks): the code takes an
early `return` before any hook dispatch. -/
theorem capability_absent_skips_after_hook :
    cNoPacket.AfterReadFrom = true ∧ cNoPacket.AfterWriteTo = true ∧
    cNoPacket.ReadFrom [0] =
      some ⟨(0, none, some GoError.notPacketConn), [], cNoPacket⟩ ∧
    cNoPacket.WriteTo [0] 7 =
      some ⟨(0, some GoError.notPacketConn), [], cNoPacket⟩ :=
  ⟨rfl, rfl, rfl, rfl⟩

/-- Claim C4: on a wrapped connection lacking packet capability, for
every buffer and destination address, `ReadFrom` returns
`(0, nil, ErrNotPacketConn)` and `WriteTo` returns
`(0, ErrNotPacketConn)`, with an empty trace: no before hook (and in
fact no hook at all) is invoked on this path. -/
theorem capability_absent_fixed_error (c : Conn) (b : Bytes) (a : Addr)
    (hnp : c.packetOf = none) :
    c.ReadFrom b = some ⟨(0, none, some GoError.notPacketConn), [], c⟩ ∧
    c.WriteTo b a = some ⟨(0, some GoError.notPacketConn), [], c⟩ := by
  constructor
  · simp [Conn.ReadFrom, hnp]
  · simp [Conn.WriteTo, hnp]

/-- Witness for C4 at `cNoPacket` (stream-only base `ncPlain`). -/
theorem capability_absent_fixed_error_w :
    cNoPacket.ReadFrom [1] =
      some ⟨(0, none, some GoError.notPacketConn), [], cNoPacket⟩ ∧
    cNoPacket.WriteTo [1] 7 =
      some ⟨(0, some GoError.notPacketConn), [], cNoPacket⟩ :=
  capability_absent_fixed_error cNoPacket [1] 7 rfl

/-- Claim C5: whenever the before-accept hook does not short-circuit,
`Accept` wraps the raw connection returned by the underlying accept —
even a nil one, when accept errors with `E` — in a fresh connection
decorator with every hook field unset, returns that decorator together
with `E`, and (when set) invokes the after-accept hook with that same
decorator and that same error, even in the error case. -/
theorem accept_wraps_even_on_error (l : Listener)
    (hpass : passes l.BeforeAccept) :
    l.Accept = ⟨(some (Conn.fresh l.Base.accept.1), l.Base.accept.2),
      preTr l.BeforeAccept Event.beforeAccept ++ [Event.baseAccept] ++
        afterTr l.AfterAccept
          (Event.afterAccept (Conn.fresh l.Base.accept.1)
            l.Base.accept.2), l⟩ ∧
    Conn.hookFree (Conn.fresh l.Base.accept.1) := by
  constructor
  · rcases hpass with h | h <;>
      simp [Listener.Accept, runBefore, preTr, h]
  · simp [Conn.hookFree, Conn.fresh]

/-- Witness for C5 at `lSample`: the underlying accept returns a nil
raw connection and error `errE`; `BeforeAccept` is unset and
`AfterAccept` is set and observes the fresh decorator and `errE`. -/
theorem accept_wraps_even_on_error_w :
    lSample.Accept = ⟨(some (Conn.fresh none), some errE),
      [Event.baseAccept,
        Event.afterAccept (Conn.fresh none) (some errE)], lSample⟩ ∧
    Conn.hookFree (Conn.fresh none) :=
  accept_wraps_even_on_error lSample (Or.inl rfl)

/-- Claim C8: when the listener's before-close hook is set and returns
error `F`, `Close` returns exactly `F` and the trace is exactly the
before-hook invocation: neither the underlying close nor the
after-close hook is ever invoked. -/
theorem listener_close_short_circuits (l : Listener) (e : GoError)
    (h : l.BeforeClose = some (some e)) :
    l.Close = ⟨some e, [Event.beforeCloseL], l⟩ := by
  simp [Listener.Close, runBefore, h]

/-- Witness for C8 at `lSample`, whose `BeforeClose` returns `errF`
while `AfterClose` is set. -/
theorem listener_close_short_circuits_w :
    lSample.Close = ⟨some errF, [Event.beforeCloseL], lSample⟩ :=
  listener_close_short_circuits lSample errF rfl

/-- Claim C9: on a decorator whose wrapped connection is nil (`Base =
none`, as `Accept` produces when the underlying accept fails), the
packet-capability check fails without dereferencing the wrapped
connection, so `ReadFrom` and `WriteTo` complete normally (`some`
outcome — no nil-dereference panic) with the `ErrNotPacketConn`
sentinel, zero bytes, and (for ReadFrom) a nil address, for every
input. -/
theorem nil_base_packet_ops_total (c : Conn) (b : Bytes) (a : Addr)
    (hnil : c.Base = none) :
    c.ReadFrom b = some ⟨(0, none, some GoError.notPacketConn), [], c⟩ ∧
    c.WriteTo b a = some ⟨(0, some GoError.notPacketConn), [], c⟩ := by
  constructor
  · simp [Conn.ReadFrom, Conn.packetOf, hnil]
  · simp [Conn.WriteTo, Conn.packetOf, hnil]

/-- Witness for C9 at the decorator `Accept` builds around a nil raw
connection. -/
theorem nil_base_packet_ops_total_w :
    (Conn.fresh none).ReadFrom [1] =
      some ⟨(0, none, some GoError.notPacketConn), [], Conn.fresh none⟩ ∧
    (Conn.fresh none).WriteTo [1] 7 =
      some ⟨(0, some GoError.notPacketConn), [], Conn.fresh none⟩ :=
  nil_base_packet_ops_total (Conn.fresh none) [1] 7 rfl

/-- Claim C6: on a decorator all of whose hook fields are unset, every
decorated operation performs exactly the one underlying call and
returns exactly its results: reads, writes, close, address queries and
deadline setters forward the base results verbatim (packet operations
on a packet-capable base forward the base packet call); the hook-free
listener's close and address query forward verbatim, and its accept
forwards the underlying error verbatim while wrapping the raw
connection in the documented fresh decorator. -/
theorem unset_hooks_pass_through (c : Conn) (l : Listener) (base : NetConn)
    (p : PacketOps) (b : Bytes) (a : Addr) (t : Time)
    (hcf : c.hookFree) (hbase : c.Base = some base)
    (hlf : l.hookFree) :
    c.Read b = some ⟨base.read b, [Event.baseRead b], c⟩ ∧
    c.Write b = some ⟨base.write b, [Event.baseWrite b], c⟩ ∧
    c.Close = some ⟨base.close, [Event.baseCloseC], c⟩ ∧
    c.LocalAddr = some ⟨base.localAddr, [Event.baseLocalAddr], c⟩ ∧
    c.RemoteAddr = some ⟨base.remoteAddr, [Event.baseRemoteAddr], c⟩ ∧
    c.SetDeadline t = some ⟨base.setDeadline t, [Event.baseSetDeadline t], c⟩ ∧
    c.SetReadDeadline t =
      some ⟨base.setReadDeadline t, [Event.baseSetReadDeadline t], c⟩ ∧
    c.SetWriteDeadline t =
      some ⟨base.setWriteDeadline t, [Event.baseSetWriteDeadline t], c⟩ ∧
    (base.packet = some p →
      c.ReadFrom b = some ⟨p.readFrom b, [Event.baseReadFrom b], c⟩) ∧
    (base.packet = some p →
      c.WriteTo b a = some ⟨p.writeTo b a, [Event.baseWriteTo b a], c⟩) ∧
    l.Close = ⟨l.Base.close, [Event.baseCloseL], l⟩ ∧
    l.Addr = ⟨l.Base.addr, [Event.baseAddr], l⟩ ∧
    l.Accept = ⟨(some (Conn.fresh l.Base.accept.1), l.Base.accept.2),
      [Event.baseAccept], l⟩ := by
  obtain ⟨hc1, hc2, hc3, hc4, hc5, hc6, hc7, hc8, hc9, hc10, hc11, hc12,
    hc13, hc14, hc15, hc16, hc17, hc18⟩ := hcf
  obtain ⟨hl1, hl2, hl3, hl4, hl5⟩ := hlf
  refine ⟨?_, ?_, ?_, ?_, ?_, ?_, ?_, ?_, ?_, ?_, ?_, ?_, ?_⟩
  · simp [Conn.Read, hookArg, runBefore, afterTr, hc1, hc2, hbase]
  · simp [Conn.Write, hookArg, runBefore, afterTr, hc5, hc6, hbase]
  · simp [Conn.Close, runBefore, afterTr, hc9, hc10, hbase]
  · simp [Conn.LocalAddr, afterTr, hc11, hbase]
  · simp [Conn.RemoteAddr, afterTr, hc12, hbase]
  · simp [Conn.SetDeadline, hookArg, runBefore, afterTr, hc13, hc14, hbase]
  · simp [Conn.SetReadDeadline, hookArg, runBefore, afterTr, hc15, hc16, hbase]
  · simp [Conn.SetWriteDeadline, hookArg, runBefore, afterTr, hc17, hc18, hbase]
  · intro hp
    simp [Conn.ReadFrom, Conn.packetOf, hookArg, runBefore, afterTr,
      hc3, hc4, hbase, hp]
  · intro hp
    simp [Conn.WriteTo, Conn.packetOf, hookArg2, runBefore, afterTr,
      hc7, hc8, hbase, hp]
  · simp [Listener.Close, runBefore, afterTr, hl3, hl4]
  · simp [Listener.Addr, afterTr, hl5]
  · simp [Listener.Accept, runBefore, afterTr, hl1, hl2]

/-- Witness for C6 at the hook-free decorators `cQuiet` (over
`ncPacket`) and `lQuiet` (over `nlFailing`). -/
theorem unset_hooks_pass_through_w :
    cQuiet.Read [1] = some ⟨(1, none), [Event.baseRead [1]], cQuiet⟩ ∧
    cQuiet.Write [1] = some ⟨(1, none), [Event.baseWrite [1]], cQuiet⟩ ∧
    cQuiet.Close = some ⟨none, [Event.baseCloseC], cQuiet⟩ ∧
    cQuiet.LocalAddr = some ⟨1, [Event.baseLocalAddr], cQuiet⟩ ∧
    cQuiet.RemoteAddr = some ⟨2, [Event.baseRemoteAddr], cQuiet⟩ ∧
    cQuiet.SetDeadline 5 = some ⟨none, [Event.baseSetDeadline 5], cQuiet⟩ ∧
    cQuiet.SetReadDeadline 5 =
      some ⟨none, [Event.baseSetReadDeadline 5], cQuiet⟩ ∧
    cQuiet.SetWriteDeadline 5 =
      some ⟨none, [Event.baseSetWriteDeadline 5], cQuiet⟩ ∧
    (ncPacket.packet = some pOps →
      cQuiet.ReadFrom [1] =
        some ⟨(1, some 9, none), [Event.baseReadFrom [1]], cQuiet⟩) ∧
    (ncPacket.packet = some pOps →
      cQuiet.WriteTo [1] 7 =
        some ⟨(1, none), [Event.baseWriteTo [1] 7], cQuiet⟩) ∧
    lQuiet.Close = ⟨none, [Event.baseCloseL], lQuiet⟩ ∧
    lQuiet.Addr = ⟨3, [Event.baseAddr], lQuiet⟩ ∧
    lQuiet.Accept = ⟨(some (Conn.fresh none), some errE),
      [Event.baseAccept], lQuiet⟩ :=
  unset_hooks_pass_through cQuiet lQuiet ncPacket pOps [1] 7 5
    (by simp [Conn.hookFree, cQuiet, Conn.fresh])
    rfl
    (by simp [Listener.hookFree, lQuiet])

/-- Claim C7: address-query operations (connection `LocalAddr` and
`RemoteAddr`, listener `Addr`) always invoke the underlying query —
there is no before hook and no short-circuit path — and the after hook,
when set, observes exactly the address the underlying query returned,
which is returned to the caller regardless of the hook. -/
theorem address_queries_pass_through (c : Conn) (l : Listener)
    (base : NetConn) (hbase : c.Base = some base) :
    c.LocalAddr = some ⟨base.localAddr, [Event.baseLocalAddr] ++
      afterTr c.AfterLocalAddr (Event.afterLocalAddr base.localAddr), c⟩ ∧
    c.RemoteAddr = some ⟨base.remoteAddr, [Event.baseRemoteAddr] ++
      afterTr c.AfterRemoteAddr (Event.afterRemoteAddr base.remoteAddr), c⟩ ∧
    l.Addr = ⟨l.Base.addr, [Event.baseAddr] ++
      afterTr l.AfterAddr (Event.afterAddr l.Base.addr), l⟩ := by
  refine ⟨?_, ?_, ?_⟩
  · simp [Conn.LocalAddr, hbase]
  · simp [Conn.RemoteAddr, hbase]
  · simp [Listener.Addr]

/-- Witness for C7 at `cPass` (both address after hooks set, base
`ncPacket`) and `lSample` (`AfterAddr` set, base `nlFailing`). -/
theorem address_queries_pass_through_w :
    cPass.LocalAddr = some ⟨1,
      [Event.baseLocalAddr, Event.afterLocalAddr 1], cPass⟩ ∧
    cPass.RemoteAddr = some ⟨2,
      [Event.baseRemoteAddr, Event.afterRemoteAddr 2], cPass⟩ ∧
    lSample.Addr = ⟨3, [Event.baseAddr, Event.afterAddr 3], lSample⟩ :=
  address_queries_pass_through cPass lSample ncPacket rfl

/-- Claim C10: every decorated operation leaves the decorator instance
unchanged — whenever a call completes (a nil-base dereference, the
`none` outcome, has no completing state), the post-call decorator
equals the pre-call one, wrapped object reference and every hook field
included.  Hooks are embedded as pure functions, matching the claim's
assumption that installed hooks do not themselves mutate the
decorator. -/
theorem decorator_state_unchanged (c : Conn) (l : Listener) (b : Bytes)
    (a : Addr) (t : Time) :
    (c.Read b).elim True (fun r => r.post = c) ∧
    (c.ReadFrom b).elim True (fun r => r.post = c) ∧
    (c.Write b).elim True (fun r => r.post = c) ∧
    (c.WriteTo b a).elim True (fun r => r.post = c) ∧
    (c.Close).elim True (fun r => r.post = c) ∧
    (c.LocalAddr).elim True (fun r => r.post = c) ∧
    (c.RemoteAddr).elim True (fun r => r.post = c) ∧
    (c.SetDeadline t).elim True (fun r => r.post = c) ∧
    (c.SetReadDeadline t).elim True (fun r => r.post = c) ∧
    (c.SetWriteDeadline t).elim True (fun r => r.post = c) ∧
    (l.Accept).post = l ∧ (l.Close).post = l ∧ (l.Addr).post = l := by
  refine ⟨?_, ?_, ?_, ?_, ?_, ?_, ?_, ?_, ?_, ?_, ?_, ?_, ?_⟩
  · rcases hB : c.BeforeRead with _ | f <;>
      rcases hb : c.Base with _ | base <;>
        simp [Conn.Read, hookArg, runBefore, hB, hb] <;>
          rcases hf : f b with _ | e <;> simp [hf]
  · rcases hp : c.packetOf with _ | p
    · simp [Conn.ReadFrom, hp]
    · rcases hB : c.BeforeReadFrom with _ | f
      · simp [Conn.ReadFrom, hookArg, runBefore, hp, hB]
      · rcases hf : f b with _ | e <;>
          simp [Conn.ReadFrom, hookArg, runBefore, hp, hB, hf]
  · rcases hB : c.BeforeWrite with _ | f <;>
      rcases hb : c.Base with _ | base <;>
        simp [Conn.Write, hookArg, runBefore, hB, hb] <;>
          rcases hf : f b with _ | e <;> simp [hf]
  · rcases hp : c.packetOf with _ | p
    · simp [Conn.WriteTo, hp]
    · rcases hB : c.BeforeWriteTo with _ | f
      · simp [Conn.WriteTo, hookArg2, runBefore, hp, hB]
      · rcases hf : f b a with _ | e <;>
          simp [Conn.WriteTo, hookArg2, runBefore, hp, hB, hf]
  · rcases hB : c.BeforeClose with _ | r <;>
      rcases hb : c.Base with _ | base <;>
        simp [Conn.Close, runBefore, hB, hb] <;>
          rcases r with _ | e <;> simp
  · rcases hb : c.Base with _ | base <;> simp [Conn.LocalAddr, hb]
  · rcases hb : c.Base with _ | base <;> simp [Conn.RemoteAddr, hb]
  · rcases hB : c.BeforeSetDeadline with _ | f <;>
      rcases hb : c.Base with _ | base <;>
        simp [Conn.SetDeadline, hookArg, runBefore, hB, hb] <;>
          rcases hf : f t with _ | e <;> simp [hf]
  · rcases hB : c.BeforeSetReadDeadline with _ | f <;>
      rcases hb : c.Base with _ | base <;>
        simp [Conn.SetReadDeadline, hookArg, runBefore, hB, hb] <;>
          rcases hf : f t with _ | e <;> simp [hf]
  · rcases hB : c.BeforeSetWriteDeadline with _ | f <;>
      rcases hb : c.Base with _ | base <;>
        simp [Conn.SetWriteDeadline, hookArg, runBefore, hB, hb] <;>
          rcases hf : f t with _ | e <;> simp [hf]
  · rcases hB : l.BeforeAccept with _ | r
    · simp [Listener.Accept, runBefore, hB]
    · rcases r with _ | e <;> simp [Listener.Accept, runBefore, hB]
  · rcases hB : l.BeforeClose with _ | r
    · simp [Listener.Close, runBefore, hB]
    · rcases r with _ | e <;> simp [Listener.Close, runBefore, hB]
  · simp [Listener.Addr]

end Connxray
